import Mathlib

/-!
# SafeRoadAI — verification of the core pipeline (`src/app.py`)

Shallow embedding of the pure pipeline logic of the SafeRoadAI tool:
PDF text assembly (`extract_text_from_pdf`), keyword extraction
(`extract_road_issues`), intervention matching
(`find_matching_interventions`) and the AI-summary wrapper
(`generate_ai_summary`).  Python strings are modelled as Lean `String`
(operating on `String.data : List Char`), pandas rows as association
records with a `keywords` cell, and the external collaborators (the PDF
parser and the generative-AI service) as explicit inputs.
-/

set_option autoImplicit false

namespace SafeRoadAI

/-! ## Python string primitives

Models of the Python string operations used by the source:
`str.strip`, `str.lower`, slicing `s[:n]`, and the `in` substring test.
All are defined on `String.data` so proofs stay in `List Char`.
-/

/-- Whitespace characters removed by Python `str.strip()` (ASCII part). -/
def isPyWs (c : Char) : Bool :=
  c = ' ' || c = '\t' || c = '\n' || c = '\r' || c = '\x0b' || c = '\x0c'

/-- Model of Python `s.strip()`: drop leading and trailing whitespace. -/
def pyStrip (s : String) : String :=
  String.mk (((s.data.dropWhile isPyWs).reverse.dropWhile isPyWs).reverse)

/-- Model of Python `s.lower()` (ASCII case mapping). -/
def pyLower (s : String) : String :=
  String.mk (s.data.map Char.toLower)

/-- Model of Python slicing `s[:n]` (first `n` characters). -/
def pyTake (n : Nat) (s : String) : String :=
  String.mk (s.data.take n)

/-- Model of the Python substring test `pat in hay`. -/
def strContains (hay pat : String) : Bool :=
  (List.range (hay.data.length + 1)).any fun i =>
    pat.data.isPrefixOf (hay.data.drop i)

/-- Splitting a character list at every comma, keeping empty pieces
(`"".split(",") == [""]`, `",".split(",") == ["", ""]`). -/
def splitCommaChars : List Char → List (List Char)
  | [] => [[]]
  | c :: cs =>
    match splitCommaChars cs with
    | [] => [[]]
    | t :: ts => if c = ',' then [] :: t :: ts else (c :: t) :: ts

/-- Model of Python `s.split(",")`. -/
def pySplitComma (s : String) : List String :=
  (splitCommaChars s.data).map String.mk

/-! ## Generic keep-first deduplication

`list(set(...))` produces the distinct elements of a list (in an order
pandas/Python does not specify; we canonicalise to first occurrence),
and `pandas.DataFrame.drop_duplicates()` keeps the first occurrence of
each full-row value.  Both are modelled by `dedupKeepFirst`.
-/

/-- Deduplication pass: keep an element unless it is in `seen`. -/
def dedupAux {α : Type} [DecidableEq α] (seen : List α) : List α → List α
  | [] => []
  | x :: xs => if x ∈ seen then dedupAux seen xs else x :: dedupAux (x :: seen) xs

/-- Deduplicate a list keeping the first occurrence of each element. -/
def dedupKeepFirst {α : Type} [DecidableEq α] (l : List α) : List α :=
  dedupAux [] l

/-! ## 2️⃣ PDF text extraction (`extract_text_from_pdf`, app.py lines 35–40)

The PyPDF2 collaborator is abstracted: a document that `PdfReader` can
parse is the list of its pages' `extract_text()` results (a page with no
extractable text yields `""`); a document it cannot parse is `none`
(`PdfReader` raises, which the source propagates — the spec's
`ExtractionError`).
-/

/-- The abstract error of §7 of the spec: the document cannot be parsed. -/
inductive ExtractionError where
  | unparsable
  deriving DecidableEq, Repr

/-- `text = ""; for page in reader.pages: text += page.extract_text() + "\n"`. -/
def concatPages (pages : List String) : String :=
  pages.foldl (fun acc p => acc ++ p ++ "\n") ""

/-- Model of `extract_text_from_pdf` (app.py lines 35–40): concatenate
every page's text followed by `"\n"`, then `str.strip()` the result;
an unparsable document raises. -/
def extract_text_from_pdf (doc : Option (List String)) :
    Except ExtractionError String :=
  match doc with
  | none => Except.error ExtractionError.unparsable
  | some pages => Except.ok (pyStrip (concatPages pages))

/-- The spec's wording: page texts joined with a newline separator
*between* pages (no trailing newline). -/
def joinPagesSpec : List String → String
  | [] => ""
  | [p] => p
  | p :: ps => p ++ "\n" ++ joinPagesSpec ps

/-! ## 3️⃣ Issue extraction (`extract_road_issues`, app.py lines 45–47)

`re.findall` with the case-insensitive alternation of the fixed
vocabulary scans left to right, tries the alternatives in written order
at each position, records the matched text (in its original case) and
resumes after the match.  `list(set(...))` then deduplicates the matched
strings (exact string equality).
-/

/-- The fixed fourteen-keyword vocabulary of app.py line 46, in the
order the regex alternation lists it. -/
def vocab : List String :=
  ["pothole", "crack", "sign", "marking", "lighting", "barrier",
   "shoulder", "accident", "flood", "drain", "school", "curve",
   "visibility", "intersection"]

/-- Case-insensitive prefix test: does `k` match the head of `cs` up to
ASCII case? -/
def ciPrefix : List Char → List Char → Bool
  | [], _ => true
  | _ :: _, [] => false
  | k :: ks, c :: cs => (c.toLower = k.toLower) && ciPrefix ks cs

/-- First vocabulary word (in alternation order) matching at the head of
`cs`, as Python's regex alternation resolves it. -/
def firstMatch : List String → List Char → Option String
  | [], _ => none
  | w :: ws, cs => if ciPrefix w.data cs then some w else firstMatch ws cs

/-- The scanning loop of `re.findall`, fuelled (every step either moves
one character forward or past a non-empty match, so `l.length` fuel is
enough): at each position try the alternation; on a match, record the
matched substring in its original case and resume after it. -/
def findAllAux : Nat → List Char → List String
  | 0, _ => []
  | _ + 1, [] => []
  | fuel + 1, c :: cs =>
    match firstMatch vocab (c :: cs) with
    | some w =>
        String.mk ((c :: cs).take w.data.length)
          :: findAllAux fuel (cs.drop (w.data.length - 1))
    | none => findAllAux fuel cs

/-- Model of `re.findall(pattern, text)` for the vocabulary alternation:
non-overlapping left-to-right scan, returning each matched substring in
its original case. -/
def findAllMatches (l : List Char) : List String :=
  findAllAux l.length l

/-- Model of `extract_road_issues` (app.py lines 45–47):
`list(set(re.findall(pattern, text)))`. -/
def extract_road_issues (text : String) : List String :=
  dedupKeepFirst (findAllMatches text.data)

/-! ## 4️⃣ Intervention matching (`find_matching_interventions`, app.py lines 52–58)

A pandas cell is either a string, the missing value `NaN` (what pandas
stores when a row's `keywords` field is blank/absent), or some other
non-textual value (modelled as an integer).  A row of the reference
table carries its `keywords` cell plus the remaining named cells;
`row.to_dict()` equality is full-row equality, and
`pandas.duplicated`/`drop_duplicates` treats `NaN` cells as equal to
each other, as `DecidableEq` on `Cell` does.
-/

/-- A pandas cell value. -/
inductive Cell where
  | str (s : String)
  | nan
  | num (n : Int)
  deriving DecidableEq, Repr

/-- A reference-table row: its `keywords` cell and the other columns. -/
structure Row where
  keywords : Cell
  rest : List (String × Cell)
  deriving DecidableEq, Repr

/-- The row test of app.py line 56:
`isinstance(row["keywords"], str) and any(k.strip().lower() in issue.lower() for k in row["keywords"].split(","))`. -/
def rowMatchesIssue (row : Row) (issue : String) : Bool :=
  match row.keywords with
  | Cell.str s =>
      (pySplitComma s).any fun k =>
        strContains (pyLower issue) (pyLower (pyStrip k))
  | _ => false

/-- The accumulation loop of app.py lines 54–57: for every issue, append
every matching row of the table. -/
def matchLoop (issues : List String) (df : List Row) : List Row :=
  match issues with
  | [] => []
  | i :: rest => df.filter (fun row => rowMatchesIssue row i) ++ matchLoop rest df

/-- Model of `find_matching_interventions` (app.py lines 52–58): the
accumulated matches, deduplicated by full-row equality
(`pd.DataFrame(matches).drop_duplicates()`). -/
def find_matching_interventions (issues : List String) (df : List Row) : List Row :=
  dedupKeepFirst (matchLoop issues df)

/-! ## 5️⃣ AI summary (`generate_ai_summary`, app.py lines 63–75)

The generative-AI collaborator is abstracted as a function from the
prompt to either a response text or a failure message (`str(e)` of the
raised exception); `textwrap.fill(·, width=100)` is abstracted as a
string transformer supplied by the caller.
-/

/-- The fixed template text preceding the truncated report excerpt
(app.py lines 66–69). -/
def promptPrefix : String :=
  "\n        Summarize the following road safety report in 5 bullet points.\n        Focus on detected issues, suggested improvements, and key safety actions.\n        Text:\n        "

/-- The fixed template text following the excerpt (app.py lines 70–71). -/
def promptSuffix : String :=
  "\n        "

/-- The prompt built inside `generate_ai_summary` (app.py lines 65–71):
`short_text = text[:1500]` interpolated into the fixed f-string. -/
def buildPrompt (text : String) : String :=
  promptPrefix ++ pyTake 1500 text ++ promptSuffix

/-- The fallback text of app.py line 75 before the interpolated cause. -/
def failMsgPrefix : String :=
  "⚠️ AI summary generation failed: "

/-- Model of `generate_ai_summary` (app.py lines 63–75): call the
service on the built prompt; on success return the wrapped, stripped
response, on any exception return the fallback message carrying the
cause. -/
def generate_ai_summary (svc : String → Except String String)
    (fill : String → String) (text : String) : String :=
  match svc (buildPrompt text) with
  | Except.ok r => fill (pyStrip r)
  | Except.error e => failMsgPrefix ++ e

/-! ## Concrete data for the spec's scenario

The input text and reference rows of the round-trip scenario in §8 of
the spec. -/

/-- The scenario input text. -/
def reportText : String :=
  "There is a dangerous pothole near the school crossing and the road lighting is poor."

/-- Scenario row `{keywords:"pothole,crack", name:"Pothole Repair"}`. -/
def rowPothole : Row :=
  ⟨Cell.str "pothole,crack", [("name", Cell.str "Pothole Repair")]⟩

/-- Scenario row `{keywords:"school,crossing", name:"School Zone Signage"}`. -/
def rowSchool : Row :=
  ⟨Cell.str "school,crossing", [("name", Cell.str "School Zone Signage")]⟩

/-- Scenario row `{keywords:"lighting", name:"Street Lighting Upgrade"}`. -/
def rowLighting : Row :=
  ⟨Cell.str "lighting", [("name", Cell.str "Street Lighting Upgrade")]⟩

/-! ## Helper lemmas -/

theorem mem_dedupAux {α : Type} [DecidableEq α] (seen l : List α) (a : α) :
    a ∈ dedupAux seen l ↔ a ∈ l ∧ a ∉ seen := by
  induction l generalizing seen with
  | nil => simp [dedupAux]
  | cons x xs ih =>
    by_cases hx : x ∈ seen <;> simp [dedupAux, hx, ih] <;>
      by_cases hax : a = x <;> simp [hax, hx] <;> tauto

theorem nodup_dedupAux {α : Type} [DecidableEq α] (seen l : List α) :
    (dedupAux seen l).Nodup := by
  induction l generalizing seen with
  | nil => simp [dedupAux]
  | cons x xs ih =>
    by_cases hx : x ∈ seen
    · simpa [dedupAux, hx] using ih seen
    · rw [show dedupAux seen (x :: xs) = x :: dedupAux (x :: seen) xs from by
        simp [dedupAux, hx]]
      simp only [List.nodup_cons]
      refine ⟨fun hmem => ?_, ih (x :: seen)⟩
      exact ((mem_dedupAux (x :: seen) xs x).1 hmem).2 (List.mem_cons_self x seen)

theorem mem_dedupKeepFirst {α : Type} [DecidableEq α] (l : List α) (a : α) :
    a ∈ dedupKeepFirst l ↔ a ∈ l := by
  simp [dedupKeepFirst, mem_dedupAux]

theorem nodup_dedupKeepFirst {α : Type} [DecidableEq α] (l : List α) :
    (dedupKeepFirst l).Nodup :=
  nodup_dedupAux [] l

theorem mem_matchLoop (issues : List String) (df : List Row) (row : Row) :
    row ∈ matchLoop issues df ↔
      ∃ i ∈ issues, row ∈ df ∧ rowMatchesIssue row i = true := by
  induction issues with
  | nil => simp [matchLoop]
  | cons i rest ih =>
    simp only [matchLoop, List.mem_append, List.mem_filter, ih, List.mem_cons]
    constructor
    · rintro (⟨hdf, hm⟩ | ⟨j, hj, hdf, hm⟩)
      · exact ⟨i, Or.inl rfl, hdf, hm⟩
      · exact ⟨j, Or.inr hj, hdf, hm⟩
    · rintro ⟨j, hj | hj, hdf, hm⟩
      · exact Or.inl ⟨hdf, hj ▸ hm⟩
      · exact Or.inr ⟨j, hj, hdf, hm⟩

theorem strContains_empty_pat (hay : String) : strContains hay "" = true := by
  refine List.any_eq_true.2 ⟨0, List.mem_range.2 (Nat.succ_pos _), ?_⟩
  show ([] : List Char).isPrefixOf (hay.data.drop 0) = true
  simp [List.isPrefixOf]

theorem isPrefixOf_self (l : List Char) : l.isPrefixOf l = true := by
  induction l with
  | nil => simp [List.isPrefixOf]
  | cons c cs ih => simp [List.isPrefixOf, ih]

theorem strContains_append_right (pre e : String) :
    strContains (pre ++ e) e = true := by
  refine List.any_eq_true.2 ⟨pre.data.length, ?_, ?_⟩
  · rw [List.mem_range, String.data_append, List.length_append]
    omega
  · rw [String.data_append, List.drop_left]
    exact isPrefixOf_self e.data

theorem dropWhile_append_newline (l : List Char) :
    (l ++ ['\n']).dropWhile isPyWs =
      if (l.dropWhile isPyWs).isEmpty then []
      else l.dropWhile isPyWs ++ ['\n'] := by
  induction l with
  | nil => simp [List.dropWhile, isPyWs]
  | cons c cs ih =>
    by_cases hc : isPyWs c = true
    · simpa [List.dropWhile, hc] using ih
    · simp [List.dropWhile, hc]

theorem pyStrip_append_newline (s : String) : pyStrip (s ++ "\n") = pyStrip s := by
  unfold pyStrip
  rw [String.data_append, show ("\n" : String).data = ['\n'] from by decide]
  rw [dropWhile_append_newline s.data]
  by_cases h : (s.data.dropWhile isPyWs).isEmpty = true
  · rw [if_pos h]
    have h' : s.data.dropWhile isPyWs = [] := by
      cases heq : s.data.dropWhile isPyWs with
      | nil => rfl
      | cons a l => rw [heq] at h; simp [List.isEmpty] at h
    rw [h']
  · rw [if_neg h]
    have hrev : (s.data.dropWhile isPyWs ++ ['\n']).reverse
        = '\n' :: (s.data.dropWhile isPyWs).reverse := by
      rw [List.reverse_append]
      rfl
    rw [hrev,
      show List.dropWhile isPyWs ('\n' :: (s.data.dropWhile isPyWs).reverse)
          = List.dropWhile isPyWs ((s.data.dropWhile isPyWs).reverse) from by
        simp [List.dropWhile, isPyWs]]

theorem concatPages_foldl_data (pages : List String) :
    ∀ a : String, (pages.foldl (fun acc p => acc ++ p ++ "\n") a).data
      = a.data ++ (pages.map fun p => p.data ++ ['\n']).flatten := by
  induction pages with
  | nil => intro a; simp
  | cons p ps ih =>
    intro a
    simp only [List.foldl_cons, List.map_cons, List.flatten]
    rw [ih (a ++ p ++ "\n"), String.data_append, String.data_append,
      show ("\n" : String).data = ['\n'] from by decide]
    simp [List.append_assoc]

theorem joinPagesSpec_data (p : String) (ps : List String) :
    (joinPagesSpec (p :: ps)).data ++ ['\n']
      = ((p :: ps).map fun q => q.data ++ ['\n']).flatten := by
  induction ps generalizing p with
  | nil => simp [joinPagesSpec, List.flatten]
  | cons q ps ih =>
    show (p ++ "\n" ++ joinPagesSpec (q :: ps)).data ++ ['\n'] = _
    rw [String.data_append, String.data_append,
      show ("\n" : String).data = ['\n'] from by decide]
    rw [List.append_assoc, List.append_assoc, ih q]
    simp [List.flatten, List.append_assoc]

theorem concatPages_eq_joinSpec (p : String) (ps : List String) :
    concatPages (p :: ps) = joinPagesSpec (p :: ps) ++ "\n" := by
  apply String.ext
  rw [String.data_append, show ("\n" : String).data = ['\n'] from by decide,
    joinPagesSpec_data]
  show ((p :: ps).foldl (fun acc q => acc ++ q ++ "\n") "").data = _
  rw [concatPages_foldl_data (p :: ps) "",
    show ("" : String).data = [] from by decide, List.nil_append]

theorem ciPrefix_map_toLower (k : List Char) :
    ∀ cs : List Char, ciPrefix k cs = true →
      (cs.take k.length).map Char.toLower = k.map Char.toLower := by
  induction k with
  | nil => intro cs _; simp
  | cons a ks ih =>
    intro cs h
    cases cs with
    | nil => simp [ciPrefix] at h
    | cons c cs' =>
      simp only [ciPrefix, Bool.and_eq_true, decide_eq_true_eq] at h
      simp only [List.length_cons, List.take_succ_cons, List.map_cons, h.1]
      exact congrArg (List.cons a.toLower) (ih cs' h.2)

theorem firstMatch_eq_some (ws : List String) :
    ∀ (cs : List Char) (w : String), firstMatch ws cs = some w →
      w ∈ ws ∧ ciPrefix w.data cs = true := by
  induction ws with
  | nil => intro cs w h; simp [firstMatch] at h
  | cons v vs ih =>
    intro cs w h
    by_cases hv : ciPrefix v.data cs = true
    · simp only [firstMatch, hv, if_true] at h
      cases h
      exact ⟨List.mem_cons_self v vs, hv⟩
    · simp only [firstMatch, hv, if_false] at h
      rcases ih cs w h with ⟨hw, hc⟩
      exact ⟨List.mem_cons_of_mem v hw, hc⟩

theorem vocab_map_toLower : ∀ w ∈ vocab, w.data.map Char.toLower = w.data := by
  decide

theorem findAllAux_lower_mem_vocab :
    ∀ (fuel : Nat) (l : List Char) (x : String),
      x ∈ findAllAux fuel l → pyLower x ∈ vocab := by
  intro fuel
  induction fuel with
  | zero => intro l x h; simp [findAllAux] at h
  | succ n ih =>
    intro l x h
    cases l with
    | nil => simp [findAllAux] at h
    | cons c cs =>
      simp only [findAllAux] at h
      cases hm : firstMatch vocab (c :: cs) with
      | none =>
        rw [hm] at h
        exact ih cs x h
      | some w =>
        rw [hm] at h
        rcases List.mem_cons.1 h with hx | hx
        · subst hx
          rcases firstMatch_eq_some vocab (c :: cs) w hm with ⟨hw, hc⟩
          have hlow : pyLower (String.mk ((c :: cs).take w.data.length)) = w := by
            show String.mk (((c :: cs).take w.data.length).map Char.toLower) = w
            rw [ciPrefix_map_toLower w.data (c :: cs) hc, vocab_map_toLower w hw]
          rw [hlow]
          exact hw
        · exact ih _ x hx

/-! ## Claim theorems -/

/-- C1: every row in the output of `find_matching_interventions` is a
row of the input table, has (in its textual `keywords` cell) at least
one comma-separated token that — after trimming and lower-casing —
matches (is a substring of, per the source's test direction) at least
one issue of the input set, and the output has no duplicate rows. -/
theorem match_interventions_sound (issues : List String) (df : List Row) (row : Row)
    (hrow : row ∈ find_matching_interventions issues df) :
    row ∈ df ∧
      (∃ s, row.keywords = Cell.str s ∧
        ∃ k ∈ pySplitComma s, ∃ issue ∈ issues,
          strContains (pyLower issue) (pyLower (pyStrip k)) = true) ∧
      (find_matching_interventions issues df).Nodup := by
  have hmem : row ∈ matchLoop issues df :=
    (mem_dedupKeepFirst (matchLoop issues df) row).1 hrow
  rcases (mem_matchLoop issues df row).1 hmem with ⟨i, hi, hdf, hmatch⟩
  refine ⟨hdf, ?_, nodup_dedupKeepFirst (matchLoop issues df)⟩
  rcases hkw : row.keywords with s | _ | n
  · simp only [rowMatchesIssue, hkw] at hmatch
    rcases List.any_eq_true.1 hmatch with ⟨k, hk, hc⟩
    exact ⟨s, rfl, k, hk, i, hi, hc⟩
  · simp [rowMatchesIssue, hkw] at hmatch
  · simp [rowMatchesIssue, hkw] at hmatch

/-- Witness for C1 at the round-trip scenario input of §8:
`{"pothole"}` against the single row `{keywords:"pothole,crack"}`. -/
theorem match_interventions_sound_witness :
    rowPothole ∈ [rowPothole] ∧
      (∃ s, rowPothole.keywords = Cell.str s ∧
        ∃ k ∈ pySplitComma s, ∃ issue ∈ ["pothole"],
          strContains (pyLower issue) (pyLower (pyStrip k)) = true) ∧
      (find_matching_interventions ["pothole"] [rowPothole]).Nodup :=
  match_interventions_sound ["pothole"] [rowPothole] rowPothole (by decide)

/-- C2: the §8 scenario — the extracted issues of `reportText` are
exactly `{pothole, school, lighting}` (order-independent), and matching
them against the three scenario rows returns exactly those three rows,
each exactly once. -/
theorem pipeline_scenario :
    (extract_road_issues reportText).Perm ["pothole", "school", "lighting"] ∧
      (find_matching_interventions (extract_road_issues reportText)
          [rowPothole, rowSchool, rowLighting]).Perm
        [rowPothole, rowSchool, rowLighting] ∧
      (find_matching_interventions (extract_road_issues reportText)
          [rowPothole, rowSchool, rowLighting]).Nodup := by
  have h1 : extract_road_issues reportText = ["pothole", "school", "lighting"] := by
    decide
  have h2 : find_matching_interventions (extract_road_issues reportText)
      [rowPothole, rowSchool, rowLighting] = [rowPothole, rowSchool, rowLighting] := by
    decide
  rw [h2, h1]
  exact ⟨List.Perm.refl _, List.Perm.refl _, by decide⟩

/-- C9: an empty issue set yields an empty match result, for every
reference table. -/
theorem match_interventions_empty_issues (df : List Row) :
    find_matching_interventions [] df = [] := rfl

/-- C4 counterexample: on `"Pothole pothole"` the extractor returns two
distinct elements that lower-case to the same vocabulary keyword —
`list(set(re.findall(...)))` deduplicates by exact (case-sensitive)
string equality, not case-insensitively. -/
theorem extract_issues_case_dedup_cex :
    "Pothole" ∈ extract_road_issues "Pothole pothole" ∧
      "pothole" ∈ extract_road_issues "Pothole pothole" ∧
      "Pothole" ≠ "pothole" ∧
      pyLower "Pothole" = pyLower "pothole" := by
  decide

/-- C4 (amended): the result of `extract_road_issues` is distinct under
exact string equality — no element appears twice — but a keyword
occurring in several letter cases yields one element per distinct
casing, not one per vocabulary keyword. -/
theorem extract_issues_nodup (text : String) :
    (extract_road_issues text).Nodup :=
  nodup_dedupKeepFirst (findAllMatches text.data)

/-- C6: every extracted issue is (up to the vocabulary's case-insensitive
identity, i.e. after lower-casing) one of the fixed fourteen keywords,
and extraction is deterministic: the same input always yields the same
result. -/
theorem extract_issues_subset_vocab (text : String) :
    (∀ x ∈ extract_road_issues text, pyLower x ∈ vocab) ∧
      extract_road_issues text = extract_road_issues text := by
  refine ⟨fun x hx => ?_, rfl⟩
  exact findAllAux_lower_mem_vocab text.data.length text.data x
    ((mem_dedupKeepFirst (findAllMatches text.data) x).1 hx)

/-- Witness for C6 at the §8 scenario text. -/
theorem extract_issues_subset_vocab_witness :
    "pothole" ∈ extract_road_issues reportText ∧ pyLower "pothole" ∈ vocab :=
  ⟨by decide, (extract_issues_subset_vocab reportText).1 "pothole" (by decide)⟩

/-- C7: a row whose `keywords` cell is not a textual value (pandas `NaN`
for an absent field, or any non-string value) is skipped: it is never in
the output of `find_matching_interventions`, and the matcher — a total
function — raises no error on it (line 56's `isinstance` guard
short-circuits the token test). -/
theorem non_textual_keywords_skipped (issues : List String) (df : List Row)
    (row : Row) (h : ∀ s, row.keywords ≠ Cell.str s) :
    row ∉ find_matching_interventions issues df := by
  intro hmem
  rcases (mem_matchLoop issues df row).1
      ((mem_dedupKeepFirst (matchLoop issues df) row).1 hmem) with ⟨i, _, _, hm⟩
  rcases hkw : row.keywords with s | _ | n
  · exact h s hkw
  · simp [rowMatchesIssue, hkw] at hm
  · simp [rowMatchesIssue, hkw] at hm

/-- Witness for C7: a row with a `NaN` keywords cell, in a table next to
a matching textual row, is absent from the output. -/
theorem non_textual_keywords_skipped_witness :
    (⟨Cell.nan, []⟩ : Row) ∉
      find_matching_interventions ["pothole"] [⟨Cell.nan, []⟩, rowPothole] :=
  non_textual_keywords_skipped ["pothole"] [⟨Cell.nan, []⟩, rowPothole]
    ⟨Cell.nan, []⟩ (fun _ hs => Cell.noConfusion hs)

/-- C10: a textual `keywords` cell containing a token that trims to the
empty string (leading, trailing or doubled comma) makes the row match
every issue — the empty string is a substring of everything — so with
any non-empty issue set the row is always in the output. -/
theorem empty_token_matches_every_issue (issues : List String) (df : List Row)
    (row : Row) (hdf : row ∈ df) (s : String)
    (hkw : row.keywords = Cell.str s) (k : String) (hk : k ∈ pySplitComma s)
    (hemp : pyStrip k = "") (hne : issues ≠ []) :
    (∀ issue, rowMatchesIssue row issue = true) ∧
      row ∈ find_matching_interventions issues df := by
  have hall : ∀ issue, rowMatchesIssue row issue = true := by
    intro issue
    simp only [rowMatchesIssue, hkw]
    refine List.any_eq_true.2 ⟨k, hk, ?_⟩
    rw [hemp, show pyLower "" = "" from rfl]
    exact strContains_empty_pat (pyLower issue)
  refine ⟨hall, ?_⟩
  cases issues with
  | nil => exact absurd rfl hne
  | cons i rest =>
    exact (mem_dedupKeepFirst (matchLoop (i :: rest) df) row).2
      ((mem_matchLoop (i :: rest) df row).2
        ⟨i, List.mem_cons_self i rest, hdf, hall i⟩)

/-- Witness for C10: the row `{keywords:",x"}` (leading comma) matched
against the issue set `{"flood"}`. -/
theorem empty_token_matches_every_issue_witness :
    (∀ issue, rowMatchesIssue ⟨Cell.str ",x", []⟩ issue = true) ∧
      (⟨Cell.str ",x", []⟩ : Row) ∈
        find_matching_interventions ["flood"] [⟨Cell.str ",x", []⟩] :=
  empty_token_matches_every_issue ["flood"] [⟨Cell.str ",x", []⟩]
    ⟨Cell.str ",x", []⟩ (by decide) ",x" rfl "" (by decide) (by decide)
    (by decide)

/-- C3: a document the PDF reader cannot parse fails with the
extraction error; for every parseable document the result is the page
texts joined with a newline separator between pages, with leading and
trailing whitespace stripped — a page contributing `""` (no extractable
text) is not fatal, being just one case of the universally quantified
page list. -/
theorem extract_text_from_pdf_spec :
    extract_text_from_pdf none = Except.error ExtractionError.unparsable ∧
      ∀ pages : List String,
        extract_text_from_pdf (some pages) =
          Except.ok (pyStrip (joinPagesSpec pages)) := by
  refine ⟨rfl, fun pages => ?_⟩
  cases pages with
  | nil => rfl
  | cons p ps =>
    show Except.ok (pyStrip (concatPages (p :: ps))) = _
    rw [concatPages_eq_joinSpec, pyStrip_append_newline]

/-- C5: whenever the external summarization call fails — for any
service behaviour and any cause `e` — `generate_ai_summary` returns the
fallback message carrying the literal failure description, and (being a
total function) propagates no fault to the caller. -/
theorem summary_failure_message (svc : String → Except String String)
    (fill : String → String) (text e : String)
    (h : svc (buildPrompt text) = Except.error e) :
    generate_ai_summary svc fill text = failMsgPrefix ++ e ∧
      strContains (generate_ai_summary svc fill text) e = true := by
  have hg : generate_ai_summary svc fill text = failMsgPrefix ++ e := by
    unfold generate_ai_summary
    rw [h]
  exact ⟨hg, hg ▸ strContains_append_right failMsgPrefix e⟩

/-- Witness for C5: a service that always fails with `"quota exceeded"`. -/
theorem summary_failure_message_witness :
    (fun _ : String => (Except.error "quota exceeded" : Except String String))
        (buildPrompt "road") = Except.error "quota exceeded" ∧
      generate_ai_summary (fun _ => Except.error "quota exceeded") id "road"
          = failMsgPrefix ++ "quota exceeded" ∧
      strContains
          (generate_ai_summary (fun _ => Except.error "quota exceeded") id "road")
          "quota exceeded" = true := by
  refine ⟨rfl, ?_⟩
  exact summary_failure_message (fun _ => Except.error "quota exceeded") id
    "road" "quota exceeded" rfl

/-- C8: the summary prompt is the fixed template around the flat prefix
of the first 1500 characters of the raw text: its size is bounded by the
template plus 1500 characters, and it depends only on that prefix (so
selection is deterministic given the same input). -/
theorem prompt_bounded_and_deterministic (text : String) :
    buildPrompt text = promptPrefix ++ pyTake 1500 text ++ promptSuffix ∧
      (buildPrompt text).data.length ≤
        promptPrefix.data.length + promptSuffix.data.length + 1500 ∧
      ∀ t₂ : String, text.data.take 1500 = t₂.data.take 1500 →
        buildPrompt text = buildPrompt t₂ := by
  refine ⟨rfl, ?_, fun t₂ h => ?_⟩
  · have hdata : (buildPrompt text).data
        = promptPrefix.data ++ ((text.data.take 1500) ++ promptSuffix.data) := by
      show ((promptPrefix ++ pyTake 1500 text) ++ promptSuffix).data = _
      rw [String.data_append, String.data_append, List.append_assoc]
      rfl
    rw [hdata]
    simp only [List.length_append]
    have htake : (text.data.take 1500).length ≤ 1500 := by
      rw [List.length_take]
      exact Nat.min_le_left 1500 text.data.length
    omega
  · show promptPrefix ++ pyTake 1500 text ++ promptSuffix = _
    unfold pyTake
    rw [h]
    rfl

/-- Witness for C8: two texts of 1501 and 1502 identical characters
share their 1500-character prefix and produce the same prompt. -/
theorem prompt_bounded_and_deterministic_witness :
    (String.mk (List.replicate 1501 'a')).data.take 1500
        = (String.mk (List.replicate 1502 'a')).data.take 1500 ∧
      buildPrompt (String.mk (List.replicate 1501 'a'))
        = buildPrompt (String.mk (List.replicate 1502 'a')) := by
  have h : (String.mk (List.replicate 1501 'a')).data.take 1500
      = (String.mk (List.replicate 1502 'a')).data.take 1500 := by
    show (List.replicate 1501 'a').take 1500 = (List.replicate 1502 'a').take 1500
    rw [List.take_replicate, List.take_replicate]
    norm_num
  exact ⟨h,
    (prompt_bounded_and_deterministic (String.mk (List.replicate 1501 'a'))).2.2
      (String.mk (List.replicate 1502 'a')) h⟩

end SafeRoadAI
